import Mathlib

/-!
Shallow embedding of the mesh-gradient generator core
(`src/generator/src/main.rs`): the control grid, the Ferguson/Hermite
patch evaluator and the tessellation routine, with `f32` arithmetic
modelled exactly over `ℚ` and Rust panics modelled as `Option.none`.
-/

namespace MeshGradients

abbrev Vec2 := ℚ × ℚ
abbrev Vec3 := ℚ × ℚ × ℚ
abbrev Mat4 := Matrix (Fin 4) (Fin 4) ℚ

/-- `struct ControlPoint` (main.rs lines 16-22). -/
structure ControlPoint where
  position : Vec2
  u_tangent : Vec2
  v_tangent : Vec2
  color : Vec3
deriving DecidableEq, Repr

/-- `ControlPoint::new` (main.rs lines 24-41): tangents are
`(2/(grid_w-1), 0) * 0.5` and `(0, 2/(grid_h-1)) * 0.5`. -/
def ControlPoint.new (position : Vec2) (color : Vec3) (grid_w grid_h : Nat) :
    ControlPoint :=
  { position := position
    u_tangent := (2 / ((grid_w - 1 : Nat) : ℚ) * (1 / 2), 0 * (1 / 2))
    v_tangent := (0 * (1 / 2), 2 / ((grid_h - 1 : Nat) : ℚ) * (1 / 2))
    color := color }

/-- `struct Mesh` (main.rs lines 9-14). -/
structure Mesh where
  width : Nat
  height : Nat
  points : List ControlPoint
deriving DecidableEq, Repr

/-- The `std::iter::from_fn` loop in `Mesh::new` (main.rs lines 49-65),
unrolled over the flat indices it visits; the `colors[count]` access
panics (here: `none`) when `count` is out of range. -/
def build_points (width height : Nat) (colors : List Vec3) :
    List Nat → Option (List ControlPoint)
  | [] => some []
  | count :: rest => do
      let x_step : ℚ := 1 / ((width - 1 : Nat) : ℚ)
      let y_step : ℚ := 1 / ((height - 1 : Nat) : ℚ)
      let x : ℚ := ((count % width : Nat) : ℚ) * x_step
      let y : ℚ := ((count / width : Nat) : ℚ) * y_step
      let color ← colors[count]?
      let pts ← build_points width height colors rest
      pure (ControlPoint.new (x, y) color width height :: pts)

/-- `Mesh::new` (main.rs lines 44-72). -/
def Mesh.new (width height : Nat) (colors : List Vec3) : Option Mesh := do
  let points ← build_points width height colors (List.range (width * height))
  pure { width := width, height := height, points := points }

/-- `Mesh::point_at` (main.rs lines 74-76): a bounds-checked access at
flat index `h * width + w`; an out-of-range flat index panics (`none`). -/
def Mesh.point_at (m : Mesh) (w h : Nat) : Option ControlPoint :=
  m.points[h * m.width + w]?

/-- The Hermite basis matrix `H` (main.rs lines 116-121). -/
def H : Mat4 :=
  !![2, -3, 0, 1;
    -2, 3, 0, 0;
     1, -2, 1, 0;
     1, -1, 0, 0]

/-- `cubic_colvec` (main.rs lines 123-125). -/
def cubic_colvec (v : ℚ) : Fin 4 → ℚ := ![v * v * v, v * v, v, 1]

/-- `enum Axis` (main.rs lines 127-131). -/
inductive Axis | X | Y
deriving DecidableEq

/-- `enum ColorAxis` (main.rs lines 133-138). -/
inductive ColorAxis | R | G | B
deriving DecidableEq

/-- `geometric_coefficients` (main.rs lines 140-169). -/
def geometric_coefficients (p00 p01 p10 p11 : ControlPoint) (axis : Axis) :
    Mat4 :=
  let l := fun p : ControlPoint => match axis with
    | Axis.X => p.position.1
    | Axis.Y => p.position.2
  let u := fun p : ControlPoint => match axis with
    | Axis.X => p.u_tangent.1
    | Axis.Y => p.u_tangent.2
  let v := fun p : ControlPoint => match axis with
    | Axis.X => p.v_tangent.1
    | Axis.Y => p.v_tangent.2
  (!![l p00, l p01, v p00, v p01;
      l p10, l p11, v p10, v p11;
      u p00, u p01, 0, 0;
      u p10, u p11, 0, 0]).transpose

/-- `color_coefficients` (main.rs lines 171-191). -/
def color_coefficients (p00 p01 p10 p11 : ControlPoint) (color : ColorAxis) :
    Mat4 :=
  let l := fun p : ControlPoint => match color with
    | ColorAxis.R => p.color.1
    | ColorAxis.G => p.color.2.1
    | ColorAxis.B => p.color.2.2
  (!![l p00, l p01, 0, 0;
      l p10, l p11, 0, 0;
      0, 0, 0, 0;
      0, 0, 0, 0]).transpose

/-- `ferguson_patch_pt` (main.rs lines 193-209). -/
def ferguson_patch_pt (u v : ℚ) (geom_x geom_y : Mat4) : Vec2 :=
  let u_vec := cubic_colvec u
  let v_vec := cubic_colvec v
  let x_acc := H.transpose * geom_x.transpose * H
  let y_acc := H.transpose * geom_y.transpose * H
  let ux := x_acc.mulVec u_vec
  let uy := y_acc.mulVec u_vec
  (Matrix.dotProduct ux v_vec, Matrix.dotProduct uy v_vec)

/-- `ferguson_patch_col` (main.rs lines 211-228). -/
def ferguson_patch_col (u v : ℚ) (rgb_coeffs : Mat4 × Mat4 × Mat4) : Vec3 :=
  let u_vec := cubic_colvec u
  let v_vec := cubic_colvec v
  let r_acc := H.transpose * rgb_coeffs.1.transpose * H
  let g_acc := H.transpose * rgb_coeffs.2.1.transpose * H
  let b_acc := H.transpose * rgb_coeffs.2.2.transpose * H
  let ur := r_acc.mulVec u_vec
  let ug := g_acc.mulVec u_vec
  let ub := b_acc.mulVec u_vec
  (Matrix.dotProduct ur v_vec, Matrix.dotProduct ug v_vec,
   Matrix.dotProduct ub v_vec)

/-- The `u32` modulus: emitted indices are cast `as u32` in the source. -/
def U32_MOD : Nat := 2 ^ 32

/-- The position post-processing in `construct_mesh` (main.rs lines
376-383): `p *= 2; p -= (1,1); p.component_mul_assign((1,-1))`, then
embed as `(p.x, p.y, 0)`. -/
def out_position (p : Vec2) : Vec3 :=
  ((p.1 * 2 - 1) * 1, (p.2 * 2 - 1) * (-1), 0)

/-- The per-patch sample loop of `construct_mesh` (main.rs lines
371-390), positions component: `i` outer, `j` inner, `u = i/steps`,
`v = j/steps`. -/
def patch_positions (geom_x geom_y : Mat4) (steps : Nat) : List Vec3 :=
  (List.range (steps + 1)).flatMap fun i =>
    (List.range (steps + 1)).map fun j : Nat =>
      out_position
        (ferguson_patch_pt ((i : ℚ) / (steps : ℚ)) ((j : ℚ) / (steps : ℚ))
          geom_x geom_y)

/-- The per-patch sample loop of `construct_mesh` (main.rs lines
371-390), colors component. -/
def patch_colors (rgb_coeffs : Mat4 × Mat4 × Mat4) (steps : Nat) :
    List Vec3 :=
  (List.range (steps + 1)).flatMap fun i =>
    (List.range (steps + 1)).map fun j : Nat =>
      ferguson_patch_col ((i : ℚ) / (steps : ℚ)) ((j : ℚ) / (steps : ℚ))
        rgb_coeffs

/-- The per-patch triangulation loop of `construct_mesh` (main.rs lines
392-404): two triangles per cell `(r, c)`, all indices cast `as u32`. -/
def patch_indexes (index_start steps : Nat) : List Nat :=
  let row_len := steps + 1
  (List.range steps).flatMap fun r =>
    (List.range steps).flatMap fun c =>
      [(index_start + r * row_len + c + row_len) % U32_MOD,
       (index_start + r * row_len + c + 1) % U32_MOD,
       (index_start + r * row_len + c) % U32_MOD,
       (index_start + r * row_len + c + row_len) % U32_MOD,
       (index_start + r * row_len + c + row_len + 1) % U32_MOD,
       (index_start + r * row_len + c + 1) % U32_MOD]

/-- One iteration of the patch loop of `construct_mesh` (main.rs lines
355-405): fetch the four corner points, build the five coefficient
matrices, append the patch's samples and indices. -/
def patch_step (mesh : Mesh) (steps : Nat)
    (acc : List Vec3 × List Vec3 × List Nat) (wh : Nat × Nat) :
    Option (List Vec3 × List Vec3 × List Nat) := do
  let p00 ← mesh.point_at wh.1 wh.2
  let p01 ← mesh.point_at wh.1 (wh.2 + 1)
  let p10 ← mesh.point_at (wh.1 + 1) wh.2
  let p11 ← mesh.point_at (wh.1 + 1) (wh.2 + 1)
  let x_coeff := geometric_coefficients p00 p01 p10 p11 Axis.X
  let y_coeff := geometric_coefficients p00 p01 p10 p11 Axis.Y
  let r_coeff := color_coefficients p00 p01 p10 p11 ColorAxis.R
  let g_coeff := color_coefficients p00 p01 p10 p11 ColorAxis.G
  let b_coeff := color_coefficients p00 p01 p10 p11 ColorAxis.B
  let index_start := acc.1.length
  pure (acc.1 ++ patch_positions x_coeff y_coeff steps,
        acc.2.1 ++ patch_colors (r_coeff, g_coeff, b_coeff) steps,
        acc.2.2 ++ patch_indexes index_start steps)

/-- The outer double loop of `construct_mesh`, `w` outer and `h` inner,
unrolled over the `(w, h)` pairs it visits. -/
def emit_patches (mesh : Mesh) (steps : Nat) :
    List (Nat × Nat) → (List Vec3 × List Vec3 × List Nat) →
    Option (List Vec3 × List Vec3 × List Nat)
  | [], acc => some acc
  | wh :: rest, acc => do
      let acc' ← patch_step mesh steps acc wh
      emit_patches mesh steps rest acc'

/-- The `(w, h)` pairs visited by `construct_mesh`'s patch loop. -/
def patch_list (width height : Nat) : List (Nat × Nat) :=
  (List.range (width - 1)).flatMap fun w =>
    (List.range (height - 1)).map fun h => (w, h)

/-- `construct_mesh` (main.rs lines 319-409). -/
def construct_mesh (mesh : Mesh) (subdivs : Nat) :
    Option (List Vec3 × List Vec3 × List Nat) :=
  emit_patches mesh (subdivs + 1) (patch_list mesh.width mesh.height)
    ([], [], [])

/-- The editor's position mutation `mesh.points[idx].position = pos`
(main.rs lines 477-483 and 529-532). -/
def Mesh.set_position (m : Mesh) (idx : Nat) (pos : Vec2) : Mesh :=
  { m with
    points := m.points.mapIdx fun i pt =>
      if i = idx then { pt with position := pos } else pt }

/-- The editor's color mutation (same shape as the position mutation,
on the `color` field). -/
def Mesh.set_color (m : Mesh) (idx : Nat) (c : Vec3) : Mesh :=
  { m with
    points := m.points.mapIdx fun i pt =>
      if i = idx then { pt with color := c } else pt }

/-- The concatenation of the index lists of `n` consecutive patches,
each contributing `(steps+1)²` vertices starting at `start`. -/
def index_blocks (start steps n : Nat) : List Nat :=
  (List.range n).flatMap fun k =>
    patch_indexes (start + k * ((steps + 1) * (steps + 1))) steps

/-- `p` is the output-space image of a raw patch evaluation of some
patch of `m` at a sample parameter `(i/steps, j/steps)`. -/
def IsPatchSample (m : Mesh) (steps : Nat) (p : Vec3) : Prop :=
  ∃ wh : Nat × Nat, ∃ i j : Nat, ∃ p00 p01 p10 p11 : ControlPoint,
    i ≤ steps ∧ j ≤ steps ∧
    m.point_at wh.1 wh.2 = some p00 ∧
    m.point_at wh.1 (wh.2 + 1) = some p01 ∧
    m.point_at (wh.1 + 1) wh.2 = some p10 ∧
    m.point_at (wh.1 + 1) (wh.2 + 1) = some p11 ∧
    p = out_position
      (ferguson_patch_pt ((i : ℚ) / (steps : ℚ)) ((j : ℚ) / (steps : ℚ))
        (geometric_coefficients p00 p01 p10 p11 Axis.X)
        (geometric_coefficients p00 p01 p10 p11 Axis.Y))

/-- The control point that `Mesh::new` constructs at flat index
`count` of a `width × height` grid with color list `colors`. -/
def grid_point (width height : Nat) (colors : List Vec3) (count : Nat) :
    ControlPoint :=
  ControlPoint.new
    (((count % width : Nat) : ℚ) * (1 / ((width - 1 : Nat) : ℚ)),
     ((count / width : Nat) : ℚ) * (1 / ((height - 1 : Nat) : ℚ)))
    (colors.getD count (0, 0, 0)) width height

/-! ### The four scalar Hermite blending polynomials

These are the rows of `H` applied to `cubic_colvec`: `h00`/`h01` blend
the two corner values of a parameter direction, `h10`/`h11` blend the
two tangent entries. -/

def h00 (t : ℚ) : ℚ := 2 * t ^ 3 - 3 * t ^ 2 + 1
def h01 (t : ℚ) : ℚ := 3 * t ^ 2 - 2 * t ^ 3
def h10 (t : ℚ) : ℚ := t ^ 3 - 2 * t ^ 2 + t
def h11 (t : ℚ) : ℚ := t ^ 3 - t ^ 2

/-! ### Evaluator lemmas -/

lemma hermite_vec (t : ℚ) :
    H.mulVec (cubic_colvec t) = ![h00 t, h01 t, h10 t, h11 t] := by
  funext i
  fin_cases i <;>
    simp [H, cubic_colvec, Matrix.mulVec, Matrix.dotProduct,
      Fin.sum_univ_four, h00, h01, h10, h11] <;> ring

/-- The scalar evaluation `((Hᵀ Gᵀ H) · cubic u) ⬝ cubic v` with
`G = baseᵀ` equals the bilinear form `(H · cubic v)ᵀ · base · (H · cubic u)`. -/
lemma eval_via_base (base : Mat4) (u v : ℚ) :
    Matrix.dotProduct
      ((H.transpose * base.transpose.transpose * H).mulVec (cubic_colvec u))
      (cubic_colvec v) =
    Matrix.dotProduct (H.mulVec (cubic_colvec v))
      (base.mulVec (H.mulVec (cubic_colvec u))) := by
  rw [Matrix.transpose_transpose, ← Matrix.mulVec_mulVec,
    ← Matrix.mulVec_mulVec, Matrix.dotProduct_comm, Matrix.dotProduct_mulVec,
    Matrix.vecMul_transpose]

lemma eval_base_00 (base : Mat4) :
    Matrix.dotProduct (H.mulVec (cubic_colvec 0))
      (base.mulVec (H.mulVec (cubic_colvec 0))) = base 0 0 := by
  rw [hermite_vec]
  norm_num [h00, h01, h10, h11, Matrix.mulVec, Matrix.dotProduct,
    Fin.sum_univ_four]

lemma eval_base_10 (base : Mat4) :
    Matrix.dotProduct (H.mulVec (cubic_colvec 0))
      (base.mulVec (H.mulVec (cubic_colvec 1))) = base 0 1 := by
  rw [hermite_vec, hermite_vec]
  norm_num [h00, h01, h10, h11, Matrix.mulVec, Matrix.dotProduct,
    Fin.sum_univ_four]

lemma eval_base_01 (base : Mat4) :
    Matrix.dotProduct (H.mulVec (cubic_colvec 1))
      (base.mulVec (H.mulVec (cubic_colvec 0))) = base 1 0 := by
  rw [hermite_vec, hermite_vec]
  norm_num [h00, h01, h10, h11, Matrix.mulVec, Matrix.dotProduct,
    Fin.sum_univ_four]

lemma eval_base_11 (base : Mat4) :
    Matrix.dotProduct (H.mulVec (cubic_colvec 1))
      (base.mulVec (H.mulVec (cubic_colvec 1))) = base 1 1 := by
  rw [hermite_vec]
  norm_num [h00, h01, h10, h11, Matrix.mulVec, Matrix.dotProduct,
    Fin.sum_univ_four]

/-- A coefficient matrix whose two tangent blocks are zero evaluates to
the smoothstep blend of its four corner entries. -/
lemma eval_base_smoothstep (a b c d u v : ℚ) :
    Matrix.dotProduct (H.mulVec (cubic_colvec v))
      ((!![a, b, 0, 0; c, d, 0, 0; 0, 0, 0, 0; 0, 0, 0, 0]).mulVec
        (H.mulVec (cubic_colvec u))) =
      h00 u * h00 v * a + h01 u * h00 v * b +
      h00 u * h01 v * c + h01 u * h01 v * d := by
  rw [hermite_vec, hermite_vec]
  simp [Matrix.mulVec, Matrix.dotProduct, Fin.sum_univ_four,
    Matrix.vecHead, Matrix.vecTail]
  ring

/-! ### Literal forms of the coefficient matrices -/

lemma geometric_coefficients_X (p00 p01 p10 p11 : ControlPoint) :
    geometric_coefficients p00 p01 p10 p11 Axis.X =
    (!![p00.position.1, p01.position.1, p00.v_tangent.1, p01.v_tangent.1;
        p10.position.1, p11.position.1, p10.v_tangent.1, p11.v_tangent.1;
        p00.u_tangent.1, p01.u_tangent.1, 0, 0;
        p10.u_tangent.1, p11.u_tangent.1, 0, 0]).transpose := rfl

lemma geometric_coefficients_Y (p00 p01 p10 p11 : ControlPoint) :
    geometric_coefficients p00 p01 p10 p11 Axis.Y =
    (!![p00.position.2, p01.position.2, p00.v_tangent.2, p01.v_tangent.2;
        p10.position.2, p11.position.2, p10.v_tangent.2, p11.v_tangent.2;
        p00.u_tangent.2, p01.u_tangent.2, 0, 0;
        p10.u_tangent.2, p11.u_tangent.2, 0, 0]).transpose := rfl

lemma color_coefficients_R (p00 p01 p10 p11 : ControlPoint) :
    color_coefficients p00 p01 p10 p11 ColorAxis.R =
    (!![p00.color.1, p01.color.1, 0, 0;
        p10.color.1, p11.color.1, 0, 0;
        0, 0, 0, 0;
        0, 0, 0, 0]).transpose := rfl

lemma color_coefficients_G (p00 p01 p10 p11 : ControlPoint) :
    color_coefficients p00 p01 p10 p11 ColorAxis.G =
    (!![p00.color.2.1, p01.color.2.1, 0, 0;
        p10.color.2.1, p11.color.2.1, 0, 0;
        0, 0, 0, 0;
        0, 0, 0, 0]).transpose := rfl

lemma color_coefficients_B (p00 p01 p10 p11 : ControlPoint) :
    color_coefficients p00 p01 p10 p11 ColorAxis.B =
    (!![p00.color.2.2, p01.color.2.2, 0, 0;
        p10.color.2.2, p11.color.2.2, 0, 0;
        0, 0, 0, 0;
        0, 0, 0, 0]).transpose := rfl

lemma ferguson_patch_pt_eq (u v : ℚ) (geom_x geom_y : Mat4) :
    ferguson_patch_pt u v geom_x geom_y =
    (Matrix.dotProduct
        ((H.transpose * geom_x.transpose * H).mulVec (cubic_colvec u))
        (cubic_colvec v),
     Matrix.dotProduct
        ((H.transpose * geom_y.transpose * H).mulVec (cubic_colvec u))
        (cubic_colvec v)) := rfl

lemma ferguson_patch_col_eq (u v : ℚ) (rc gc bc : Mat4) :
    ferguson_patch_col u v (rc, gc, bc) =
    (Matrix.dotProduct
        ((H.transpose * rc.transpose * H).mulVec (cubic_colvec u))
        (cubic_colvec v),
     Matrix.dotProduct
        ((H.transpose * gc.transpose * H).mulVec (cubic_colvec u))
        (cubic_colvec v),
     Matrix.dotProduct
        ((H.transpose * bc.transpose * H).mulVec (cubic_colvec u))
        (cubic_colvec v)) := rfl

/-! ### Corner exactness of the patch evaluator (true correspondence) -/

lemma pt_corner_00 (p00 p01 p10 p11 : ControlPoint) :
    ferguson_patch_pt 0 0
      (geometric_coefficients p00 p01 p10 p11 Axis.X)
      (geometric_coefficients p00 p01 p10 p11 Axis.Y) = p00.position := by
  rw [ferguson_patch_pt_eq, geometric_coefficients_X, geometric_coefficients_Y,
    eval_via_base, eval_via_base, eval_base_00, eval_base_00]
  simp

lemma pt_corner_10 (p00 p01 p10 p11 : ControlPoint) :
    ferguson_patch_pt 1 0
      (geometric_coefficients p00 p01 p10 p11 Axis.X)
      (geometric_coefficients p00 p01 p10 p11 Axis.Y) = p01.position := by
  rw [ferguson_patch_pt_eq, geometric_coefficients_X, geometric_coefficients_Y,
    eval_via_base, eval_via_base, eval_base_10, eval_base_10]
  simp

lemma pt_corner_01 (p00 p01 p10 p11 : ControlPoint) :
    ferguson_patch_pt 0 1
      (geometric_coefficients p00 p01 p10 p11 Axis.X)
      (geometric_coefficients p00 p01 p10 p11 Axis.Y) = p10.position := by
  rw [ferguson_patch_pt_eq, geometric_coefficients_X, geometric_coefficients_Y,
    eval_via_base, eval_via_base, eval_base_01, eval_base_01]
  simp

lemma pt_corner_11 (p00 p01 p10 p11 : ControlPoint) :
    ferguson_patch_pt 1 1
      (geometric_coefficients p00 p01 p10 p11 Axis.X)
      (geometric_coefficients p00 p01 p10 p11 Axis.Y) = p11.position := by
  rw [ferguson_patch_pt_eq, geometric_coefficients_X, geometric_coefficients_Y,
    eval_via_base, eval_via_base, eval_base_11, eval_base_11]
  simp

/-- The color evaluator is the smoothstep blend of the corner colors
(`u` blends `p00 → p01`, `v` blends `p00 → p10`). -/
lemma col_smoothstep (u v : ℚ) (p00 p01 p10 p11 : ControlPoint) :
    ferguson_patch_col u v
      (color_coefficients p00 p01 p10 p11 ColorAxis.R,
       color_coefficients p00 p01 p10 p11 ColorAxis.G,
       color_coefficients p00 p01 p10 p11 ColorAxis.B) =
    (h00 u * h00 v * p00.color.1 + h01 u * h00 v * p01.color.1 +
       h00 u * h01 v * p10.color.1 + h01 u * h01 v * p11.color.1,
     h00 u * h00 v * p00.color.2.1 + h01 u * h00 v * p01.color.2.1 +
       h00 u * h01 v * p10.color.2.1 + h01 u * h01 v * p11.color.2.1,
     h00 u * h00 v * p00.color.2.2 + h01 u * h00 v * p01.color.2.2 +
       h00 u * h01 v * p10.color.2.2 + h01 u * h01 v * p11.color.2.2) := by
  rw [ferguson_patch_col_eq, color_coefficients_R, color_coefficients_G,
    color_coefficients_B, eval_via_base, eval_via_base, eval_via_base,
    eval_base_smoothstep, eval_base_smoothstep, eval_base_smoothstep]

lemma col_corner_00 (p00 p01 p10 p11 : ControlPoint) :
    ferguson_patch_col 0 0
      (color_coefficients p00 p01 p10 p11 ColorAxis.R,
       color_coefficients p00 p01 p10 p11 ColorAxis.G,
       color_coefficients p00 p01 p10 p11 ColorAxis.B) = p00.color := by
  rw [col_smoothstep]
  norm_num [h00, h01]

lemma col_corner_10 (p00 p01 p10 p11 : ControlPoint) :
    ferguson_patch_col 1 0
      (color_coefficients p00 p01 p10 p11 ColorAxis.R,
       color_coefficients p00 p01 p10 p11 ColorAxis.G,
       color_coefficients p00 p01 p10 p11 ColorAxis.B) = p01.color := by
  rw [col_smoothstep]
  norm_num [h00, h01]

lemma col_corner_01 (p00 p01 p10 p11 : ControlPoint) :
    ferguson_patch_col 0 1
      (color_coefficients p00 p01 p10 p11 ColorAxis.R,
       color_coefficients p00 p01 p10 p11 ColorAxis.G,
       color_coefficients p00 p01 p10 p11 ColorAxis.B) = p10.color := by
  rw [col_smoothstep]
  norm_num [h00, h01]

lemma col_corner_11 (p00 p01 p10 p11 : ControlPoint) :
    ferguson_patch_col 1 1
      (color_coefficients p00 p01 p10 p11 ColorAxis.R,
       color_coefficients p00 p01 p10 p11 ColorAxis.G,
       color_coefficients p00 p01 p10 p11 ColorAxis.B) = p11.color := by
  rw [col_smoothstep]
  norm_num [h00, h01]

/-! ### Convexity of the smoothstep blend -/

lemma h00_nonneg (t : ℚ) (ht0 : 0 ≤ t) (ht1 : t ≤ 1) : 0 ≤ h00 t := by
  have hpos : 0 ≤ (1 - t) ^ 2 * (1 + 2 * t) :=
    mul_nonneg (sq_nonneg _) (by linarith)
  unfold h00
  nlinarith [hpos]

lemma h01_nonneg (t : ℚ) (ht0 : 0 ≤ t) (ht1 : t ≤ 1) : 0 ≤ h01 t := by
  have hpos : 0 ≤ t ^ 2 * (3 - 2 * t) :=
    mul_nonneg (sq_nonneg _) (by linarith)
  unfold h01
  nlinarith [hpos]

lemma h_sum_one (t : ℚ) : h00 t + h01 t = 1 := by
  unfold h00 h01; ring

lemma blend_ge_min (u v a b c d : ℚ) (hu0 : 0 ≤ u) (hu1 : u ≤ 1)
    (hv0 : 0 ≤ v) (hv1 : v ≤ 1) :
    min (min a b) (min c d) ≤
      h00 u * h00 v * a + h01 u * h00 v * b +
      h00 u * h01 v * c + h01 u * h01 v * d := by
  set m := min (min a b) (min c d) with hm
  have hma : m ≤ a := le_trans (min_le_left _ _) (min_le_left _ _)
  have hmb : m ≤ b := le_trans (min_le_left _ _) (min_le_right _ _)
  have hmc : m ≤ c := le_trans (min_le_right _ _) (min_le_left _ _)
  have hmd : m ≤ d := le_trans (min_le_right _ _) (min_le_right _ _)
  have hsum : (h00 u + h01 u) * (h00 v + h01 v) = 1 := by
    rw [h_sum_one, h_sum_one]; ring
  have key : h00 u * h00 v * a + h01 u * h00 v * b +
      h00 u * h01 v * c + h01 u * h01 v * d - m =
      (h00 u * h00 v) * (a - m) + (h01 u * h00 v) * (b - m) +
      (h00 u * h01 v) * (c - m) + (h01 u * h01 v) * (d - m) +
      m * ((h00 u + h01 u) * (h00 v + h01 v) - 1) := by ring
  rw [hsum] at key
  have t00 := mul_nonneg (mul_nonneg (h00_nonneg u hu0 hu1) (h00_nonneg v hv0 hv1))
    (sub_nonneg.mpr hma)
  have t01 := mul_nonneg (mul_nonneg (h01_nonneg u hu0 hu1) (h00_nonneg v hv0 hv1))
    (sub_nonneg.mpr hmb)
  have t10 := mul_nonneg (mul_nonneg (h00_nonneg u hu0 hu1) (h01_nonneg v hv0 hv1))
    (sub_nonneg.mpr hmc)
  have t11 := mul_nonneg (mul_nonneg (h01_nonneg u hu0 hu1) (h01_nonneg v hv0 hv1))
    (sub_nonneg.mpr hmd)
  linarith

lemma blend_le_max (u v a b c d : ℚ) (hu0 : 0 ≤ u) (hu1 : u ≤ 1)
    (hv0 : 0 ≤ v) (hv1 : v ≤ 1) :
    h00 u * h00 v * a + h01 u * h00 v * b +
      h00 u * h01 v * c + h01 u * h01 v * d ≤
      max (max a b) (max c d) := by
  set m := max (max a b) (max c d) with hm
  have hma : a ≤ m := le_trans (le_max_left _ _) (le_max_left _ _)
  have hmb : b ≤ m := le_trans (le_max_right _ _) (le_max_left _ _)
  have hmc : c ≤ m := le_trans (le_max_left _ _) (le_max_right _ _)
  have hmd : d ≤ m := le_trans (le_max_right _ _) (le_max_right _ _)
  have hsum : (h00 u + h01 u) * (h00 v + h01 v) = 1 := by
    rw [h_sum_one, h_sum_one]; ring
  have key : m - (h00 u * h00 v * a + h01 u * h00 v * b +
      h00 u * h01 v * c + h01 u * h01 v * d) =
      (h00 u * h00 v) * (m - a) + (h01 u * h00 v) * (m - b) +
      (h00 u * h01 v) * (m - c) + (h01 u * h01 v) * (m - d) +
      m * (1 - (h00 u + h01 u) * (h00 v + h01 v)) := by ring
  rw [hsum] at key
  have t00 := mul_nonneg (mul_nonneg (h00_nonneg u hu0 hu1) (h00_nonneg v hv0 hv1))
    (sub_nonneg.mpr hma)
  have t01 := mul_nonneg (mul_nonneg (h01_nonneg u hu0 hu1) (h00_nonneg v hv0 hv1))
    (sub_nonneg.mpr hmb)
  have t10 := mul_nonneg (mul_nonneg (h00_nonneg u hu0 hu1) (h01_nonneg v hv0 hv1))
    (sub_nonneg.mpr hmc)
  have t11 := mul_nonneg (mul_nonneg (h01_nonneg u hu0 hu1) (h01_nonneg v hv0 hv1))
    (sub_nonneg.mpr hmd)
  linarith

/-! ### Grid construction lemmas -/

lemma build_points_eq (width height : Nat) (colors : List Vec3)
    (l : List Nat) (hl : ∀ i ∈ l, i < colors.length) :
    build_points width height colors l =
      some (l.map (grid_point width height colors)) := by
  induction l with
  | nil => rfl
  | cons x xs ih =>
      have hx : x < colors.length := hl x (List.mem_cons_self x xs)
      have hxs : ∀ i ∈ xs, i < colors.length := fun i hi =>
        hl i (List.mem_cons_of_mem _ hi)
      simp [build_points, List.getElem?_eq_getElem hx, ih hxs, grid_point,
        List.getD_eq_getElem?_getD]

lemma build_points_none (width height : Nat) (colors : List Vec3)
    (l : List Nat) (i : Nat) (hi : i ∈ l) (hlen : colors.length ≤ i) :
    build_points width height colors l = none := by
  induction l with
  | nil => cases hi
  | cons x xs ih =>
      rcases List.mem_cons.mp hi with h | h
      · subst h
        simp [build_points, List.getElem?_eq_none hlen]
      · cases hcx : colors[x]? with
        | none => simp [build_points, hcx]
        | some c => simp [build_points, hcx, ih h]

lemma mesh_new_eq (width height : Nat) (colors : List Vec3)
    (hlen : width * height ≤ colors.length) :
    Mesh.new width height colors =
      some { width := width, height := height,
             points := (List.range (width * height)).map
               (grid_point width height colors) } := by
  unfold Mesh.new
  rw [build_points_eq width height colors _
    (fun i hi => lt_of_lt_of_le (List.mem_range.mp hi) hlen)]
  rfl

lemma mesh_new_none (width height : Nat) (colors : List Vec3)
    (hlen : colors.length < width * height) :
    Mesh.new width height colors = none := by
  unfold Mesh.new
  rw [build_points_none width height colors _ colors.length
    (List.mem_range.mpr hlen) le_rfl]
  rfl

lemma mesh_new_shape (width height : Nat) (colors : List Vec3) (m : Mesh)
    (hm : Mesh.new width height colors = some m) :
    m.width = width ∧ m.height = height ∧
      m.points = (List.range (width * height)).map
        (grid_point width height colors) := by
  by_cases hlen : width * height ≤ colors.length
  · rw [mesh_new_eq width height colors hlen] at hm
    rcases Option.some.injEq .. ▸ hm with h
    cases h
    exact ⟨rfl, rfl, rfl⟩
  · rw [mesh_new_none width height colors (by omega)] at hm
    cases hm

lemma mesh_points_length (width height : Nat) (colors : List Vec3) (m : Mesh)
    (hm : Mesh.new width height colors = some m) :
    m.points.length = width * height := by
  rcases mesh_new_shape width height colors m hm with ⟨-, -, hp⟩
  simp [hp]

lemma mesh_point_at_eq (width height : Nat) (colors : List Vec3) (m : Mesh)
    (hm : Mesh.new width height colors = some m) (w h : Nat)
    (hwh : h * width + w < width * height) :
    m.point_at w h = some (grid_point width height colors (h * width + w)) := by
  rcases mesh_new_shape width height colors m hm with ⟨hW, -, hp⟩
  simp [Mesh.point_at, hp, hW, List.getElem?_map, List.getElem?_range, hwh]

/-! ### Tessellation bookkeeping lemmas -/

lemma length_flatMap_const {α : Type} (n m : Nat) (f : Nat → List α)
    (hf : ∀ i, (f i).length = m) :
    ((List.range n).flatMap f).length = n * m := by
  induction n with
  | zero => simp
  | succ k ih =>
      rw [List.range_succ, List.flatMap_append, List.length_append, ih,
        List.flatMap_cons, List.flatMap_nil, List.append_nil, hf,
        Nat.succ_mul]

lemma patch_positions_length (gx gy : Mat4) (steps : Nat) :
    (patch_positions gx gy steps).length = (steps + 1) * (steps + 1) := by
  apply length_flatMap_const
  intro i
  rw [List.length_map, List.length_range]

lemma patch_colors_length (rgb : Mat4 × Mat4 × Mat4) (steps : Nat) :
    (patch_colors rgb steps).length = (steps + 1) * (steps + 1) := by
  apply length_flatMap_const
  intro i
  rw [List.length_map, List.length_range]

lemma patch_indexes_length (s steps : Nat) :
    (patch_indexes s steps).length = steps * steps * 6 := by
  have h : (patch_indexes s steps).length = steps * (steps * 6) := by
    apply length_flatMap_const
    intro r
    apply length_flatMap_const
    intro c
    rfl
  rw [h]
  ring

lemma patch_indexes_lt (s steps i : Nat) (hi : i ∈ patch_indexes s steps) :
    i < s + (steps + 1) * (steps + 1) := by
  simp only [patch_indexes, List.mem_flatMap, List.mem_range] at hi
  obtain ⟨r, hr, c, hc, hmem⟩ := hi
  have hprod : r * (steps + 1) + (steps + 1) ≤ steps * (steps + 1) := by
    have : (r + 1) * (steps + 1) ≤ steps * (steps + 1) :=
      Nat.mul_le_mul_right _ hr
    calc r * (steps + 1) + (steps + 1) = (r + 1) * (steps + 1) := by ring
      _ ≤ steps * (steps + 1) := this
  have hsq : s + steps * (steps + 1) + steps < s + (steps + 1) * (steps + 1) := by
    have : (steps + 1) * (steps + 1) = steps * (steps + 1) + steps + 1 := by ring
    omega
  simp only [List.mem_cons, List.not_mem_nil, or_false] at hmem
  rcases hmem with h | h | h | h | h | h <;>
    subst h <;>
    exact lt_of_le_of_lt (Nat.mod_le _ _) (by omega)

lemma patch_step_eq (m : Mesh) (steps : Nat)
    (acc : List Vec3 × List Vec3 × List Nat) (wh : Nat × Nat)
    (p00 p01 p10 p11 : ControlPoint)
    (hp00 : m.point_at wh.1 wh.2 = some p00)
    (hp01 : m.point_at wh.1 (wh.2 + 1) = some p01)
    (hp10 : m.point_at (wh.1 + 1) wh.2 = some p10)
    (hp11 : m.point_at (wh.1 + 1) (wh.2 + 1) = some p11) :
    patch_step m steps acc wh =
      some (acc.1 ++ patch_positions
              (geometric_coefficients p00 p01 p10 p11 Axis.X)
              (geometric_coefficients p00 p01 p10 p11 Axis.Y) steps,
            acc.2.1 ++ patch_colors
              (color_coefficients p00 p01 p10 p11 ColorAxis.R,
               color_coefficients p00 p01 p10 p11 ColorAxis.G,
               color_coefficients p00 p01 p10 p11 ColorAxis.B) steps,
            acc.2.2 ++ patch_indexes acc.1.length steps) := by
  simp [patch_step, hp00, hp01, hp10, hp11]

lemma index_blocks_zero (start steps : Nat) :
    index_blocks start steps 0 = [] := rfl

lemma index_blocks_succ (start steps n : Nat) :
    index_blocks start steps (n + 1) =
      patch_indexes start steps ++
        index_blocks (start + (steps + 1) * (steps + 1)) steps n := by
  rw [index_blocks, List.range_succ_eq_map, List.flatMap_cons,
    List.flatMap_map]
  have h1 : start + 0 * ((steps + 1) * (steps + 1)) = start := by ring
  rw [h1]
  congr 1
  rw [index_blocks]
  congr 1
  funext a
  congr 1
  rw [Nat.succ_mul]
  ring

lemma flat_lt (W Hh w h : Nat) (hw : w < W) (hh : h < Hh) :
    h * W + w < W * Hh := by
  calc h * W + w < h * W + W := by omega
    _ = (h + 1) * W := by ring
    _ ≤ Hh * W := Nat.mul_le_mul_right _ hh
    _ = W * Hh := Nat.mul_comm _ _

lemma point_at_some (m : Mesh) (w h : Nat)
    (hlt : h * m.width + w < m.points.length) :
    ∃ pt, m.point_at w h = some pt :=
  ⟨m.points.get ⟨h * m.width + w, hlt⟩, List.getElem?_eq_getElem hlt⟩

lemma patch_positions_mem (m : Mesh) (steps : Nat) (wh : Nat × Nat)
    (p00 p01 p10 p11 : ControlPoint)
    (hp00 : m.point_at wh.1 wh.2 = some p00)
    (hp01 : m.point_at wh.1 (wh.2 + 1) = some p01)
    (hp10 : m.point_at (wh.1 + 1) wh.2 = some p10)
    (hp11 : m.point_at (wh.1 + 1) (wh.2 + 1) = some p11) (p : Vec3)
    (hp : p ∈ patch_positions
      (geometric_coefficients p00 p01 p10 p11 Axis.X)
      (geometric_coefficients p00 p01 p10 p11 Axis.Y) steps) :
    IsPatchSample m steps p := by
  simp only [patch_positions, List.mem_flatMap, List.mem_map,
    List.mem_range] at hp
  obtain ⟨i, hi, j, hj, rfl⟩ := hp
  exact ⟨wh, i, j, p00, p01, p10, p11, by omega, by omega,
    hp00, hp01, hp10, hp11, rfl⟩

lemma emit_patches_spec (m : Mesh) (steps : Nat)
    (hlen : m.points.length = m.width * m.height) :
    ∀ (l : List (Nat × Nat)) (acc : List Vec3 × List Vec3 × List Nat),
    (∀ wh ∈ l, wh.1 + 1 < m.width ∧ wh.2 + 1 < m.height) →
    ∃ acc', emit_patches m steps l acc = some acc' ∧
      acc'.1.length = acc.1.length + l.length * ((steps + 1) * (steps + 1)) ∧
      acc'.2.1.length =
        acc.2.1.length + l.length * ((steps + 1) * (steps + 1)) ∧
      acc'.2.2 = acc.2.2 ++ index_blocks acc.1.length steps l.length ∧
      (∀ p ∈ acc'.1, p ∈ acc.1 ∨ IsPatchSample m steps p) := by
  intro l
  induction l with
  | nil =>
      intro acc _
      exact ⟨acc, rfl, by simp, by simp, by simp [index_blocks_zero],
        fun p hp => Or.inl hp⟩
  | cons wh rest ih =>
      intro acc hl
      obtain ⟨hw, hh⟩ := hl wh (List.mem_cons_self _ _)
      have hb00 : wh.2 * m.width + wh.1 < m.points.length := by
        rw [hlen]; exact flat_lt _ _ _ _ (by omega) (by omega)
      have hb01 : (wh.2 + 1) * m.width + wh.1 < m.points.length := by
        rw [hlen]; exact flat_lt _ _ _ _ (by omega) hh
      have hb10 : wh.2 * m.width + (wh.1 + 1) < m.points.length := by
        rw [hlen]; exact flat_lt _ _ _ _ hw (by omega)
      have hb11 : (wh.2 + 1) * m.width + (wh.1 + 1) < m.points.length := by
        rw [hlen]; exact flat_lt _ _ _ _ hw hh
      obtain ⟨p00, hp00⟩ := point_at_some m wh.1 wh.2 hb00
      obtain ⟨p01, hp01⟩ := point_at_some m wh.1 (wh.2 + 1) hb01
      obtain ⟨p10, hp10⟩ := point_at_some m (wh.1 + 1) wh.2 hb10
      obtain ⟨p11, hp11⟩ := point_at_some m (wh.1 + 1) (wh.2 + 1) hb11
      have hstep := patch_step_eq m steps acc wh p00 p01 p10 p11
        hp00 hp01 hp10 hp11
      have hrest : ∀ wh ∈ rest, wh.1 + 1 < m.width ∧ wh.2 + 1 < m.height :=
        fun x hx => hl x (List.mem_cons_of_mem _ hx)
      obtain ⟨acc', hrun, hplen, hclen, hidx, hmem⟩ :=
        ih (acc.1 ++ patch_positions
              (geometric_coefficients p00 p01 p10 p11 Axis.X)
              (geometric_coefficients p00 p01 p10 p11 Axis.Y) steps,
            acc.2.1 ++ patch_colors
              (color_coefficients p00 p01 p10 p11 ColorAxis.R,
               color_coefficients p00 p01 p10 p11 ColorAxis.G,
               color_coefficients p00 p01 p10 p11 ColorAxis.B) steps,
            acc.2.2 ++ patch_indexes acc.1.length steps) hrest
      refine ⟨acc', ?_, ?_, ?_, ?_, ?_⟩
      · rw [emit_patches, hstep]
        simpa using hrun
      · rw [hplen]
        simp only [List.length_append, patch_positions_length,
          List.length_cons]
        ring
      · rw [hclen]
        simp only [List.length_append, patch_colors_length,
          List.length_cons]
        ring
      · rw [hidx]
        simp only [List.length_append, patch_positions_length,
          List.length_cons]
        rw [index_blocks_succ, List.append_assoc]
      · intro p hp
        rcases hmem p hp with hmem' | hs
        · rcases List.mem_append.mp hmem' with h | h
          · exact Or.inl h
          · exact Or.inr (patch_positions_mem m steps wh p00 p01 p10 p11
              hp00 hp01 hp10 hp11 p h)
        · exact Or.inr hs

/-! ### Segment extraction from flattened constant-width blocks -/

lemma seg_append_left {α : Type} (l₁ l₂ : List α) (o s : Nat)
    (h : o + s ≤ l₁.length) :
    ((l₁ ++ l₂).drop o).take s = (l₁.drop o).take s := by
  rw [List.drop_append_eq_append_drop,
    List.take_append_of_le_length (by rw [List.length_drop]; omega)]

lemma seg_in_flatMap {α : Type} (mlen : Nat) :
    ∀ (i n : Nat) (g : Nat → List α), (∀ j, (g j).length = mlen) → i < n →
    ∀ (o s : Nat), o + s ≤ mlen →
    (((List.range n).flatMap g).drop (i * mlen + o)).take s =
      ((g i).drop o).take s := by
  intro i
  induction i with
  | zero =>
      intro n g hg hn o s hos
      obtain ⟨n', rfl⟩ : ∃ n', n = n' + 1 := ⟨n - 1, by omega⟩
      rw [List.range_succ_eq_map, List.flatMap_cons, Nat.zero_mul,
        Nat.zero_add]
      exact seg_append_left _ _ o s (by rw [hg]; omega)
  | succ i' ih =>
      intro n g hg hn o s hos
      obtain ⟨n', rfl⟩ : ∃ n', n = n' + 1 := ⟨n - 1, by omega⟩
      rw [List.range_succ_eq_map, List.flatMap_cons, List.flatMap_map]
      have harith : (i' + 1) * mlen + o = (g 0).length + (i' * mlen + o) := by
        rw [hg]; ring
      rw [harith, List.drop_append]
      exact ih n' (g ∘ Nat.succ) (fun j => hg _) (by omega) o s hos

lemma index_blocks_length (start steps n : Nat) :
    (index_blocks start steps n).length = n * (steps * steps * 6) := by
  apply length_flatMap_const
  intro k
  exact patch_indexes_length _ _

lemma index_blocks_lt (start steps n i : Nat)
    (hi : i ∈ index_blocks start steps n) :
    i < start + n * ((steps + 1) * (steps + 1)) := by
  simp only [index_blocks, List.mem_flatMap, List.mem_range] at hi
  obtain ⟨k, hk, hmem⟩ := hi
  have h1 := patch_indexes_lt _ _ _ hmem
  have h2 : (k + 1) * ((steps + 1) * (steps + 1)) ≤
      n * ((steps + 1) * (steps + 1)) := Nat.mul_le_mul_right _ hk
  calc i < start + k * ((steps + 1) * (steps + 1)) +
        (steps + 1) * (steps + 1) := h1
    _ = start + (k + 1) * ((steps + 1) * (steps + 1)) := by ring
    _ ≤ start + n * ((steps + 1) * (steps + 1)) := Nat.add_le_add_left h2 _

/-! ### Patch-list and construct_mesh lemmas -/

lemma patch_list_length (width height : Nat) :
    (patch_list width height).length = (width - 1) * (height - 1) := by
  apply length_flatMap_const
  intro i
  rw [List.length_map, List.length_range]

lemma patch_list_mem (width height : Nat) (wh : Nat × Nat)
    (hwh : wh ∈ patch_list width height) :
    wh.1 < width - 1 ∧ wh.2 < height - 1 := by
  simp only [patch_list, List.mem_flatMap, List.mem_map,
    List.mem_range] at hwh
  obtain ⟨w, hw, h, hh, rfl⟩ := hwh
  exact ⟨hw, hh⟩

lemma construct_mesh_spec (W Hh S : Nat) (colors : List Vec3) (m : Mesh)
    (hW : 2 ≤ W) (hH : 2 ≤ Hh) (hm : Mesh.new W Hh colors = some m) :
    ∃ P C I, construct_mesh m S = some (P, C, I) ∧
      P.length = (W - 1) * (Hh - 1) * ((S + 2) * (S + 2)) ∧
      C.length = (W - 1) * (Hh - 1) * ((S + 2) * (S + 2)) ∧
      I = index_blocks 0 (S + 1) ((W - 1) * (Hh - 1)) ∧
      (∀ p ∈ P, IsPatchSample m (S + 1) p) := by
  obtain ⟨hWm, hHm, hpts⟩ := mesh_new_shape W Hh colors m hm
  have hlen : m.points.length = m.width * m.height := by
    simp [hpts, hWm, hHm]
  have hl : ∀ wh ∈ patch_list m.width m.height,
      wh.1 + 1 < m.width ∧ wh.2 + 1 < m.height := by
    intro wh hwh
    have := patch_list_mem m.width m.height wh hwh
    omega
  obtain ⟨acc', hrun, hplen, hclen, hidx, hmem⟩ :=
    emit_patches_spec m (S + 1) hlen (patch_list m.width m.height)
      ([], [], []) hl
  refine ⟨acc'.1, acc'.2.1, acc'.2.2, hrun, ?_, ?_, ?_, ?_⟩
  · rw [hplen, patch_list_length, hWm, hHm]
    simp
  · rw [hclen, patch_list_length, hWm, hHm]
    simp
  · rw [hidx, patch_list_length, hWm, hHm]
    simp
  · intro p hp
    rcases hmem p hp with h | h
    · cases h
    · exact h

lemma out_position_eq (q : Vec2) :
    out_position q = (2 * q.1 - 1, -(2 * q.2 - 1), 0) := by
  simp only [out_position, Prod.mk.injEq]
  refine ⟨by ring, by ring, trivial⟩

/-- The six indices that the triangulation loop emits for cell `(r,c)`
of a patch, extracted from the flat index list. -/
lemma patch_indexes_cell (start steps r c : Nat) (hr : r < steps)
    (hc : c < steps) :
    ((patch_indexes start steps).drop ((r * steps + c) * 6)).take 6 =
      [(start + r * (steps + 1) + c + (steps + 1)) % U32_MOD,
       (start + r * (steps + 1) + c + 1) % U32_MOD,
       (start + r * (steps + 1) + c) % U32_MOD,
       (start + r * (steps + 1) + c + (steps + 1)) % U32_MOD,
       (start + r * (steps + 1) + c + (steps + 1) + 1) % U32_MOD,
       (start + r * (steps + 1) + c + 1) % U32_MOD] := by
  simp only [patch_indexes]
  rw [show (r * steps + c) * 6 = r * (steps * 6) + c * 6 from by ring]
  have e1 := seg_in_flatMap (steps * 6) r steps
    (fun r' => (List.range steps).flatMap fun c' =>
      [(start + r' * (steps + 1) + c' + (steps + 1)) % U32_MOD,
       (start + r' * (steps + 1) + c' + 1) % U32_MOD,
       (start + r' * (steps + 1) + c') % U32_MOD,
       (start + r' * (steps + 1) + c' + (steps + 1)) % U32_MOD,
       (start + r' * (steps + 1) + c' + (steps + 1) + 1) % U32_MOD,
       (start + r' * (steps + 1) + c' + 1) % U32_MOD])
    (fun j => length_flatMap_const steps 6 _ fun x => rfl) hr
    (c * 6) 6 (by omega)
  rw [e1]
  have e2 := seg_in_flatMap 6 c steps
    (fun c' =>
      [(start + r * (steps + 1) + c' + (steps + 1)) % U32_MOD,
       (start + r * (steps + 1) + c' + 1) % U32_MOD,
       (start + r * (steps + 1) + c') % U32_MOD,
       (start + r * (steps + 1) + c' + (steps + 1)) % U32_MOD,
       (start + r * (steps + 1) + c' + (steps + 1) + 1) % U32_MOD,
       (start + r * (steps + 1) + c' + 1) % U32_MOD])
    (fun j => rfl) hc 0 6 le_rfl
  rw [show c * 6 = c * 6 + 0 from rfl, e2]
  simp

lemma raw_entries_lt (s a b q st cc : Nat) (hab : a + (st + 1) ≤ b)
    (hq : q = b + st + 1) (hcc : cc < st) :
    s + a + cc + (st + 1) + 1 < s + q ∧
    s + a + cc + (st + 1) < s + q ∧
    s + a + cc + 1 < s + q ∧
    s + a + cc < s + q := by omega

/-- With all indices of the patch in `u32` range, the `% 2³²` casts in
the cell's six indices are the identity. -/
lemma patch_indexes_cell_no_mod (start steps r c : Nat) (hr : r < steps)
    (hc : c < steps)
    (hbound : start + (steps + 1) * (steps + 1) ≤ U32_MOD) :
    ((patch_indexes start steps).drop ((r * steps + c) * 6)).take 6 =
      [start + r * (steps + 1) + c + (steps + 1),
       start + r * (steps + 1) + c + 1,
       start + r * (steps + 1) + c,
       start + r * (steps + 1) + c + (steps + 1),
       start + r * (steps + 1) + c + (steps + 1) + 1,
       start + r * (steps + 1) + c + 1] := by
  rw [patch_indexes_cell start steps r c hr hc]
  have hrE : r * (steps + 1) + (steps + 1) ≤ steps * (steps + 1) := by
    calc r * (steps + 1) + (steps + 1) = (r + 1) * (steps + 1) := by ring
      _ ≤ steps * (steps + 1) := Nat.mul_le_mul_right _ hr
  have hkey := raw_entries_lt start (r * (steps + 1)) (steps * (steps + 1))
    ((steps + 1) * (steps + 1)) steps c hrE (by ring) hc
  rw [Nat.mod_eq_of_lt (lt_of_lt_of_le hkey.1 hbound),
    Nat.mod_eq_of_lt (lt_of_lt_of_le hkey.2.1 hbound),
    Nat.mod_eq_of_lt (lt_of_lt_of_le hkey.2.2.1 hbound),
    Nat.mod_eq_of_lt (lt_of_lt_of_le hkey.2.2.2 hbound)]

/-! ## Claim theorems -/

/-- Claim C1, counterexample: on the unique patch of the 2×2 unit grid,
the evaluator at `(u,v) = (1,0)` returns the position of `p01`
(the `(w,h+1)` corner), not of `p10` as the claim states. -/
theorem C1_counterexample :
    ferguson_patch_pt 1 0
      (geometric_coefficients (ControlPoint.new (0, 0) (1, 0, 0) 2 2)
        (ControlPoint.new (0, 1) (0, 1, 0) 2 2)
        (ControlPoint.new (1, 0) (0, 0, 1) 2 2)
        (ControlPoint.new (1, 1) (1, 1, 1) 2 2) Axis.X)
      (geometric_coefficients (ControlPoint.new (0, 0) (1, 0, 0) 2 2)
        (ControlPoint.new (0, 1) (0, 1, 0) 2 2)
        (ControlPoint.new (1, 0) (0, 0, 1) 2 2)
        (ControlPoint.new (1, 1) (1, 1, 1) 2 2) Axis.Y) ≠
    (ControlPoint.new (1, 0) (0, 0, 1) 2 2).position := by
  rw [pt_corner_10]
  decide

/-- Claim C1 (amended): the patch evaluator is exactly interpolatory at
the unit-square corners, but with the correspondence
`(0,0) ↦ p00`, `(1,0) ↦ p01`, `(0,1) ↦ p10`, `(1,1) ↦ p11`
(the first parameter moves from `p00` toward `p01`, the second toward
`p10`), for position and color alike. -/
theorem C1_corner_exactness (p00 p01 p10 p11 : ControlPoint) :
    ferguson_patch_pt 0 0
        (geometric_coefficients p00 p01 p10 p11 Axis.X)
        (geometric_coefficients p00 p01 p10 p11 Axis.Y) = p00.position ∧
    ferguson_patch_pt 1 0
        (geometric_coefficients p00 p01 p10 p11 Axis.X)
        (geometric_coefficients p00 p01 p10 p11 Axis.Y) = p01.position ∧
    ferguson_patch_pt 0 1
        (geometric_coefficients p00 p01 p10 p11 Axis.X)
        (geometric_coefficients p00 p01 p10 p11 Axis.Y) = p10.position ∧
    ferguson_patch_pt 1 1
        (geometric_coefficients p00 p01 p10 p11 Axis.X)
        (geometric_coefficients p00 p01 p10 p11 Axis.Y) = p11.position ∧
    ferguson_patch_col 0 0
        (color_coefficients p00 p01 p10 p11 ColorAxis.R,
         color_coefficients p00 p01 p10 p11 ColorAxis.G,
         color_coefficients p00 p01 p10 p11 ColorAxis.B) = p00.color ∧
    ferguson_patch_col 1 0
        (color_coefficients p00 p01 p10 p11 ColorAxis.R,
         color_coefficients p00 p01 p10 p11 ColorAxis.G,
         color_coefficients p00 p01 p10 p11 ColorAxis.B) = p01.color ∧
    ferguson_patch_col 0 1
        (color_coefficients p00 p01 p10 p11 ColorAxis.R,
         color_coefficients p00 p01 p10 p11 ColorAxis.G,
         color_coefficients p00 p01 p10 p11 ColorAxis.B) = p10.color ∧
    ferguson_patch_col 1 1
        (color_coefficients p00 p01 p10 p11 ColorAxis.R,
         color_coefficients p00 p01 p10 p11 ColorAxis.G,
         color_coefficients p00 p01 p10 p11 ColorAxis.B) = p11.color :=
  ⟨pt_corner_00 p00 p01 p10 p11, pt_corner_10 p00 p01 p10 p11,
   pt_corner_01 p00 p01 p10 p11, pt_corner_11 p00 p01 p10 p11,
   col_corner_00 p00 p01 p10 p11, col_corner_10 p00 p01 p10 p11,
   col_corner_01 p00 p01 p10 p11, col_corner_11 p00 p01 p10 p11⟩

/-- Claim C2, counterexample: at `(u,v) = (1/4, 0)` on a patch with
corner colors `(1,0,0)`, `(0,1,0)`, `(0,0,1)`, `(1,1,1)`, the evaluated
color is `(27/32, 5/32, 0)`, not the bilinear blend `(3/4, 0, 1/4)`
demanded by the claim. -/
theorem C2_counterexample :
    ferguson_patch_col (1 / 4) 0
      (color_coefficients (ControlPoint.new (0, 0) (1, 0, 0) 2 2)
        (ControlPoint.new (0, 1) (0, 1, 0) 2 2)
        (ControlPoint.new (1, 0) (0, 0, 1) 2 2)
        (ControlPoint.new (1, 1) (1, 1, 1) 2 2) ColorAxis.R,
       color_coefficients (ControlPoint.new (0, 0) (1, 0, 0) 2 2)
        (ControlPoint.new (0, 1) (0, 1, 0) 2 2)
        (ControlPoint.new (1, 0) (0, 0, 1) 2 2)
        (ControlPoint.new (1, 1) (1, 1, 1) 2 2) ColorAxis.G,
       color_coefficients (ControlPoint.new (0, 0) (1, 0, 0) 2 2)
        (ControlPoint.new (0, 1) (0, 1, 0) 2 2)
        (ControlPoint.new (1, 0) (0, 0, 1) 2 2)
        (ControlPoint.new (1, 1) (1, 1, 1) 2 2) ColorAxis.B) ≠
    ((1 - 1 / 4) * (1 - 0) * 1 + 1 / 4 * (1 - 0) * 0 +
       (1 - 1 / 4) * 0 * 0 + 1 / 4 * 0 * 1,
     (1 - 1 / 4) * (1 - 0) * 0 + 1 / 4 * (1 - 0) * 0 +
       (1 - 1 / 4) * 0 * 1 + 1 / 4 * 0 * 1,
     (1 - 1 / 4) * (1 - 0) * 0 + 1 / 4 * (1 - 0) * 1 +
       (1 - 1 / 4) * 0 * 0 + 1 / 4 * 0 * 1) := by
  rw [col_smoothstep]
  norm_num [h00, h01, ControlPoint.new, Prod.ext_iff]

/-- Claim C2 (amended): the evaluated color is the channel-wise
smoothstep blend of the four corner colors with Hermite weights
`h00(t) = 2t³-3t²+1` and `h01(t) = 3t²-2t³`: the weight of `p00` is
`h00(u)h00(v)`, of `p01` is `h01(u)h00(v)`, of `p10` is `h00(u)h01(v)`,
and of `p11` is `h01(u)h01(v)` (bilinear only at the sample midlines,
since `h01(t) ≠ t` in general). -/
theorem C2_color_smoothstep (p00 p01 p10 p11 : ControlPoint) (u v : ℚ) :
    ferguson_patch_col u v
      (color_coefficients p00 p01 p10 p11 ColorAxis.R,
       color_coefficients p00 p01 p10 p11 ColorAxis.G,
       color_coefficients p00 p01 p10 p11 ColorAxis.B) =
    (h00 u * h00 v * p00.color.1 + h01 u * h00 v * p01.color.1 +
       h00 u * h01 v * p10.color.1 + h01 u * h01 v * p11.color.1,
     h00 u * h00 v * p00.color.2.1 + h01 u * h00 v * p01.color.2.1 +
       h00 u * h01 v * p10.color.2.1 + h01 u * h01 v * p11.color.2.1,
     h00 u * h00 v * p00.color.2.2 + h01 u * h00 v * p01.color.2.2 +
       h00 u * h01 v * p10.color.2.2 + h01 u * h01 v * p11.color.2.2) :=
  col_smoothstep u v p00 p01 p10 p11

/-- Claim C3: tessellating a `W × H` grid (built from exactly `W·H`
colors) with subdivision `S` yields exactly `(W-1)(H-1)(S+2)²`
positions, the same number of colors, and `(W-1)(H-1)(S+1)²·6`
indices. -/
theorem C3_count_law (W Hh S : Nat) (colors : List Vec3) (hW : 2 ≤ W)
    (hH : 2 ≤ Hh) (hcol : colors.length = W * Hh) :
    ∃ m P C I, Mesh.new W Hh colors = some m ∧
      construct_mesh m S = some (P, C, I) ∧
      P.length = (W - 1) * (Hh - 1) * ((S + 2) * (S + 2)) ∧
      C.length = (W - 1) * (Hh - 1) * ((S + 2) * (S + 2)) ∧
      I.length = (W - 1) * (Hh - 1) * ((S + 1) * (S + 1)) * 6 := by
  have hm := mesh_new_eq W Hh colors (le_of_eq hcol.symm)
  obtain ⟨P, C, I, hrun, hP, hC, hI, -⟩ :=
    construct_mesh_spec W Hh S colors _ hW hH hm
  refine ⟨_, P, C, I, hm, hrun, hP, hC, ?_⟩
  rw [hI, index_blocks_length]
  ring

/-- Witness for C3 at `W = H = 2`, `S = 0`: one patch, 4 positions,
4 colors, 6 indices. -/
theorem C3_count_law_witness :
    ∃ m P C I,
      Mesh.new 2 2 (List.replicate 4 ((0, 0, 0) : Vec3)) = some m ∧
      construct_mesh m 0 = some (P, C, I) ∧
      P.length = (2 - 1) * (2 - 1) * ((0 + 2) * (0 + 2)) ∧
      C.length = (2 - 1) * (2 - 1) * ((0 + 2) * (0 + 2)) ∧
      I.length = (2 - 1) * (2 - 1) * ((0 + 1) * (0 + 1)) * 6 :=
  C3_count_law 2 2 0 (List.replicate 4 ((0, 0, 0) : Vec3))
    (by norm_num) (by norm_num) (by simp)

lemma mapIdx_map_tangents (f : Nat → ControlPoint → ControlPoint)
    (hf : ∀ i pt, ((f i pt).u_tangent, (f i pt).v_tangent) =
      (pt.u_tangent, pt.v_tangent)) (l : List ControlPoint) :
    (l.mapIdx f).map (fun pt => (pt.u_tangent, pt.v_tangent)) =
      l.map fun pt => (pt.u_tangent, pt.v_tangent) := by
  induction l generalizing f with
  | nil => rfl
  | cons a t ih =>
      rw [List.mapIdx_cons, List.map_cons, List.map_cons, hf,
        ih (fun i pt => f (i + 1) pt) (fun i pt => hf (i + 1) pt)]

lemma grid_point_tangents (W Hh : Nat) (colors : List Vec3) (count : Nat)
    (hW : 2 ≤ W) (hH : 2 ≤ Hh) :
    (grid_point W Hh colors count).u_tangent = (1 / ((W : ℚ) - 1), 0) ∧
    (grid_point W Hh colors count).v_tangent = (0, 1 / ((Hh : ℚ) - 1)) := by
  have hWc : ((W - 1 : Nat) : ℚ) = (W : ℚ) - 1 := by
    push_cast [Nat.cast_sub (by omega : 1 ≤ W)]
    ring
  have hHc : ((Hh - 1 : Nat) : ℚ) = (Hh : ℚ) - 1 := by
    push_cast [Nat.cast_sub (by omega : 1 ≤ Hh)]
    ring
  constructor
  · simp only [grid_point, ControlPoint.new, hWc, Prod.mk.injEq]
    constructor <;> ring
  · simp only [grid_point, ControlPoint.new, hHc, Prod.mk.injEq]
    constructor <;> ring

lemma grid_point_position (W Hh : Nat) (colors : List Vec3) (i j : Nat)
    (hW : 2 ≤ W) (hH : 2 ≤ Hh) (hi : i < W) (hj : j < Hh) :
    (grid_point W Hh colors (j * W + i)).position =
      ((i : ℚ) / ((W : ℚ) - 1), (j : ℚ) / ((Hh : ℚ) - 1)) := by
  have hmod : (j * W + i) % W = i := by
    rw [show j * W + i = W * j + i by ring, Nat.mul_add_mod]
    exact Nat.mod_eq_of_lt hi
  have hdiv : (j * W + i) / W = j := by
    rw [show j * W + i = W * j + i by ring,
      Nat.mul_add_div (by omega : 0 < W), Nat.div_eq_of_lt hi,
      Nat.add_zero]
  have hWc : ((W - 1 : Nat) : ℚ) = (W : ℚ) - 1 := by
    push_cast [Nat.cast_sub (by omega : 1 ≤ W)]
    ring
  have hHc : ((Hh - 1 : Nat) : ℚ) = (Hh : ℚ) - 1 := by
    push_cast [Nat.cast_sub (by omega : 1 ≤ Hh)]
    ring
  simp only [grid_point, ControlPoint.new, hmod, hdiv, hWc, hHc,
    Prod.mk.injEq]
  constructor <;> ring

/-- Claim C6: in any constructed grid every control point carries
`u_tangent = (1/(W-1), 0)` and `v_tangent = (0, 1/(H-1))`, the same
for all points, and the editor's position and color mutations change
no tangent anywhere in the grid. -/
theorem C6_tangent_invariance (W Hh : Nat) (colors : List Vec3) (m : Mesh)
    (hW : 2 ≤ W) (hH : 2 ≤ Hh) (hm : Mesh.new W Hh colors = some m) :
    (∀ pt ∈ m.points, pt.u_tangent = (1 / ((W : ℚ) - 1), 0) ∧
       pt.v_tangent = (0, 1 / ((Hh : ℚ) - 1))) ∧
    (∀ idx pos, (Mesh.set_position m idx pos).points.map
        (fun pt => (pt.u_tangent, pt.v_tangent)) =
      m.points.map fun pt => (pt.u_tangent, pt.v_tangent)) ∧
    (∀ idx c, (Mesh.set_color m idx c).points.map
        (fun pt => (pt.u_tangent, pt.v_tangent)) =
      m.points.map fun pt => (pt.u_tangent, pt.v_tangent)) := by
  obtain ⟨-, -, hpts⟩ := mesh_new_shape W Hh colors m hm
  refine ⟨?_, ?_, ?_⟩
  · intro pt hpt
    rw [hpts] at hpt
    obtain ⟨count, -, rfl⟩ := List.mem_map.mp hpt
    exact grid_point_tangents W Hh colors count hW hH
  · intro idx pos
    exact mapIdx_map_tangents _ (fun i pt => by
      by_cases h : i = idx <;> simp [h]) m.points
  · intro idx c
    exact mapIdx_map_tangents _ (fun i pt => by
      by_cases h : i = idx <;> simp [h]) m.points

/-- Witness for C6 on the 2×2 grid. -/
theorem C6_tangent_invariance_witness :
    (∀ pt ∈ (Mesh.mk 2 2 ((List.range (2 * 2)).map
        (grid_point 2 2 (List.replicate 4 ((0, 0, 0) : Vec3))))).points,
       pt.u_tangent = (1 / ((2 : ℚ) - 1), 0) ∧
       pt.v_tangent = (0, 1 / ((2 : ℚ) - 1))) ∧
    (∀ idx pos, (Mesh.set_position
        (Mesh.mk 2 2 ((List.range (2 * 2)).map
          (grid_point 2 2 (List.replicate 4 ((0, 0, 0) : Vec3)))))
        idx pos).points.map
        (fun pt => (pt.u_tangent, pt.v_tangent)) =
      (Mesh.mk 2 2 ((List.range (2 * 2)).map
        (grid_point 2 2 (List.replicate 4
          ((0, 0, 0) : Vec3))))).points.map
        fun pt => (pt.u_tangent, pt.v_tangent)) ∧
    (∀ idx c, (Mesh.set_color
        (Mesh.mk 2 2 ((List.range (2 * 2)).map
          (grid_point 2 2 (List.replicate 4 ((0, 0, 0) : Vec3)))))
        idx c).points.map
        (fun pt => (pt.u_tangent, pt.v_tangent)) =
      (Mesh.mk 2 2 ((List.range (2 * 2)).map
        (grid_point 2 2 (List.replicate 4
          ((0, 0, 0) : Vec3))))).points.map
        fun pt => (pt.u_tangent, pt.v_tangent)) :=
  C6_tangent_invariance 2 2 (List.replicate 4 ((0, 0, 0) : Vec3)) _
    (by norm_num) (by norm_num)
    (mesh_new_eq 2 2 (List.replicate 4 ((0, 0, 0) : Vec3)) (by simp))

/-- Claim C7: every index emitted by tessellation of a constructed grid
is a valid offset into the emitted positions (and hence colors). -/
theorem C7_index_bounds (W Hh S : Nat) (colors : List Vec3) (hW : 2 ≤ W)
    (hH : 2 ≤ Hh) (hcol : colors.length = W * Hh) :
    ∃ m P C I, Mesh.new W Hh colors = some m ∧
      construct_mesh m S = some (P, C, I) ∧
      ∀ i ∈ I, i < P.length := by
  have hm := mesh_new_eq W Hh colors (le_of_eq hcol.symm)
  obtain ⟨P, C, I, hrun, hP, -, hI, -⟩ :=
    construct_mesh_spec W Hh S colors _ hW hH hm
  refine ⟨_, P, C, I, hm, hrun, ?_⟩
  intro i hi
  rw [hI] at hi
  have hlt := index_blocks_lt 0 (S + 1) ((W - 1) * (Hh - 1)) i hi
  have h2 : S + 1 + 1 = S + 2 := by omega
  rw [h2] at hlt
  rw [hP]
  simpa using hlt

/-- Witness for C7 on the 2×2 grid with S = 0. -/
theorem C7_index_bounds_witness :
    ∃ m P C I,
      Mesh.new 2 2 (List.replicate 4 ((0, 0, 0) : Vec3)) = some m ∧
      construct_mesh m 0 = some (P, C, I) ∧
      ∀ i ∈ I, i < P.length :=
  C7_index_bounds 2 2 0 (List.replicate 4 ((0, 0, 0) : Vec3))
    (by norm_num) (by norm_num) (by simp)

/-- Claim C8, counterexample: on a constructed 3×3 grid,
`point_at(3, 0)` has `w = 3 ≥ width = 3`, yet it does not fail — the
flat index `0·3+3 = 3` is still in range, so it returns the row-1
point instead. -/
theorem C8_counterexample :
    Mesh.new 3 3 (List.replicate 9 ((0, 0, 0) : Vec3)) =
      some (Mesh.mk 3 3 ((List.range (3 * 3)).map
        (grid_point 3 3 (List.replicate 9 ((0, 0, 0) : Vec3))))) ∧
    (Mesh.mk 3 3 ((List.range (3 * 3)).map
        (grid_point 3 3 (List.replicate 9
          ((0, 0, 0) : Vec3))))).point_at 3 0 ≠ none := by
  have hm := mesh_new_eq 3 3 (List.replicate 9 ((0, 0, 0) : Vec3)) (by simp)
  refine ⟨hm, ?_⟩
  rw [mesh_point_at_eq 3 3 (List.replicate 9 ((0, 0, 0) : Vec3)) _ hm 3 0
    (by norm_num)]
  simp

/-- Claim C8 (amended): `point_at(w,h)` bounds-checks only the flat
index `h·W+w`: when `h·W+w < W·H` it returns the row-major point at
that flat index (for `w < W`, `h < H` this is the column-`w` row-`h`
point), and it fails only when `h·W+w ≥ W·H`; an out-of-range `w` with
in-range flat index wraps to a later row instead of failing. -/
theorem C8_point_at (W Hh : Nat) (colors : List Vec3) (m : Mesh)
    (hm : Mesh.new W Hh colors = some m) (w h : Nat) :
    (h * W + w < W * Hh →
       m.point_at w h = some (grid_point W Hh colors (h * W + w))) ∧
    (W * Hh ≤ h * W + w → m.point_at w h = none) := by
  constructor
  · intro hlt
    exact mesh_point_at_eq W Hh colors m hm w h hlt
  · intro hge
    obtain ⟨hW, -, hpts⟩ := mesh_new_shape W Hh colors m hm
    show m.points[h * m.width + w]? = none
    rw [hW]
    apply List.getElem?_eq_none
    simp only [hpts, List.length_map, List.length_range]
    omega

/-- Witness for C8 on the 2×2 grid at `(w,h) = (1,1)` (in range) and
`(w,h) = (0,2)` (out of range): packaged at `(1,1)`; the in-range
branch fires. -/
theorem C8_point_at_witness :
    (1 * 2 + 1 < 2 * 2 →
      (Mesh.mk 2 2 ((List.range (2 * 2)).map
        (grid_point 2 2 (List.replicate 4
          ((0, 0, 0) : Vec3))))).point_at 1 1 =
        some (grid_point 2 2 (List.replicate 4 ((0, 0, 0) : Vec3))
          (1 * 2 + 1))) ∧
    (2 * 2 ≤ 1 * 2 + 1 →
      (Mesh.mk 2 2 ((List.range (2 * 2)).map
        (grid_point 2 2 (List.replicate 4
          ((0, 0, 0) : Vec3))))).point_at 1 1 = none) :=
  C8_point_at 2 2 (List.replicate 4 ((0, 0, 0) : Vec3)) _
    (mesh_new_eq 2 2 (List.replicate 4 ((0, 0, 0) : Vec3)) (by simp)) 1 1

/-- Claim C9, counterexample: `build(2, 2, colors)` with 5 colors
(5 ≠ 2·2) does not fail — construction succeeds, silently ignoring the
excess color. -/
theorem C9_counterexample :
    Mesh.new 2 2 (List.replicate 5 ((0, 0, 0) : Vec3)) ≠ none := by
  rw [mesh_new_eq 2 2 (List.replicate 5 ((0, 0, 0) : Vec3)) (by simp)]
  simp

/-- Claim C9 (amended): construction fails (index-out-of-bounds panic,
modelled as `none`) exactly when `colors` has fewer than `width·height`
entries — there is no `InvalidInput` check, and excess colors are
accepted. On success it produces `width·height` points in row-major
order; the point at column `i`, row `j` has position
`(i/(width-1), j/(height-1))` and the color at flat index
`j·width+i`. -/
theorem C9_build (W Hh : Nat) (colors : List Vec3) (hW : 2 ≤ W)
    (hH : 2 ≤ Hh) :
    (colors.length < W * Hh → Mesh.new W Hh colors = none) ∧
    (W * Hh ≤ colors.length →
      ∃ m, Mesh.new W Hh colors = some m ∧ m.width = W ∧ m.height = Hh ∧
        m.points.length = W * Hh ∧
        ∀ i j : Nat, i < W → j < Hh →
          ∃ pt, m.points[j * W + i]? = some pt ∧
            pt.position =
              ((i : ℚ) / ((W : ℚ) - 1), (j : ℚ) / ((Hh : ℚ) - 1)) ∧
            colors[j * W + i]? = some pt.color) := by
  constructor
  · exact mesh_new_none W Hh colors
  · intro hlen
    have hm := mesh_new_eq W Hh colors hlen
    refine ⟨_, hm, rfl, rfl, by simp, ?_⟩
    intro i j hi hj
    have hflat : j * W + i < W * Hh := flat_lt W Hh i j hi hj
    refine ⟨grid_point W Hh colors (j * W + i), ?_, ?_, ?_⟩
    · simp [List.getElem?_map, List.getElem?_range, hflat]
    · exact grid_point_position W Hh colors i j hW hH hi hj
    · have hk : j * W + i < colors.length := lt_of_lt_of_le hflat hlen
      rw [List.getElem?_eq_getElem hk]
      simp [grid_point, ControlPoint.new, List.getD_eq_getElem?_getD,
        List.getElem?_eq_getElem hk]

/-- Witness for C9 at `W = H = 2` with exactly 4 colors. -/
theorem C9_build_witness :
    ((List.replicate 4 ((0, 0, 0) : Vec3)).length < 2 * 2 →
      Mesh.new 2 2 (List.replicate 4 ((0, 0, 0) : Vec3)) = none) ∧
    (2 * 2 ≤ (List.replicate 4 ((0, 0, 0) : Vec3)).length →
      ∃ m, Mesh.new 2 2 (List.replicate 4 ((0, 0, 0) : Vec3)) = some m ∧
        m.width = 2 ∧ m.height = 2 ∧ m.points.length = 2 * 2 ∧
        ∀ i j : Nat, i < 2 → j < 2 →
          ∃ pt, m.points[j * 2 + i]? = some pt ∧
            pt.position =
              ((i : ℚ) / ((2 : ℚ) - 1), (j : ℚ) / ((2 : ℚ) - 1)) ∧
            (List.replicate 4 ((0, 0, 0) : Vec3))[j * 2 + i]? =
              some pt.color) :=
  C9_build 2 2 (List.replicate 4 ((0, 0, 0) : Vec3))
    (by norm_num) (by norm_num)

/-- Claim C10: each channel of the evaluated color stays between the
minimum and maximum of that channel over the four corner control
points, for all `(u,v) ∈ [0,1]²`. -/
theorem C10_color_bounds (p00 p01 p10 p11 : ControlPoint) (u v : ℚ)
    (hu0 : 0 ≤ u) (hu1 : u ≤ 1) (hv0 : 0 ≤ v) (hv1 : v ≤ 1) :
    (min (min p00.color.1 p01.color.1) (min p10.color.1 p11.color.1) ≤
        (ferguson_patch_col u v
          (color_coefficients p00 p01 p10 p11 ColorAxis.R,
           color_coefficients p00 p01 p10 p11 ColorAxis.G,
           color_coefficients p00 p01 p10 p11 ColorAxis.B)).1 ∧
      (ferguson_patch_col u v
          (color_coefficients p00 p01 p10 p11 ColorAxis.R,
           color_coefficients p00 p01 p10 p11 ColorAxis.G,
           color_coefficients p00 p01 p10 p11 ColorAxis.B)).1 ≤
        max (max p00.color.1 p01.color.1) (max p10.color.1 p11.color.1)) ∧
    (min (min p00.color.2.1 p01.color.2.1)
        (min p10.color.2.1 p11.color.2.1) ≤
        (ferguson_patch_col u v
          (color_coefficients p00 p01 p10 p11 ColorAxis.R,
           color_coefficients p00 p01 p10 p11 ColorAxis.G,
           color_coefficients p00 p01 p10 p11 ColorAxis.B)).2.1 ∧
      (ferguson_patch_col u v
          (color_coefficients p00 p01 p10 p11 ColorAxis.R,
           color_coefficients p00 p01 p10 p11 ColorAxis.G,
           color_coefficients p00 p01 p10 p11 ColorAxis.B)).2.1 ≤
        max (max p00.color.2.1 p01.color.2.1)
          (max p10.color.2.1 p11.color.2.1)) ∧
    (min (min p00.color.2.2 p01.color.2.2)
        (min p10.color.2.2 p11.color.2.2) ≤
        (ferguson_patch_col u v
          (color_coefficients p00 p01 p10 p11 ColorAxis.R,
           color_coefficients p00 p01 p10 p11 ColorAxis.G,
           color_coefficients p00 p01 p10 p11 ColorAxis.B)).2.2 ∧
      (ferguson_patch_col u v
          (color_coefficients p00 p01 p10 p11 ColorAxis.R,
           color_coefficients p00 p01 p10 p11 ColorAxis.G,
           color_coefficients p00 p01 p10 p11 ColorAxis.B)).2.2 ≤
        max (max p00.color.2.2 p01.color.2.2)
          (max p10.color.2.2 p11.color.2.2)) := by
  rw [col_smoothstep]
  exact ⟨⟨blend_ge_min u v _ _ _ _ hu0 hu1 hv0 hv1,
          blend_le_max u v _ _ _ _ hu0 hu1 hv0 hv1⟩,
         ⟨blend_ge_min u v _ _ _ _ hu0 hu1 hv0 hv1,
          blend_le_max u v _ _ _ _ hu0 hu1 hv0 hv1⟩,
         ⟨blend_ge_min u v _ _ _ _ hu0 hu1 hv0 hv1,
          blend_le_max u v _ _ _ _ hu0 hu1 hv0 hv1⟩⟩

/-- Witness for C10 at `u = v = 1/2` on a concrete patch. -/
theorem C10_color_bounds_witness :
    (min (min (ControlPoint.new (0, 0) (0, 0, 0) 2 2).color.1 (ControlPoint.new (0, 1) (1, 0, 0) 2 2).color.1) (min (ControlPoint.new (1, 0) (0, 1, 0) 2 2).color.1 (ControlPoint.new (1, 1) (1, 1, 1) 2 2).color.1) ≤
        (ferguson_patch_col (1 / 2) (1 / 2)
          (color_coefficients (ControlPoint.new (0, 0) (0, 0, 0) 2 2) (ControlPoint.new (0, 1) (1, 0, 0) 2 2) (ControlPoint.new (1, 0) (0, 1, 0) 2 2) (ControlPoint.new (1, 1) (1, 1, 1) 2 2) ColorAxis.R,
           color_coefficients (ControlPoint.new (0, 0) (0, 0, 0) 2 2) (ControlPoint.new (0, 1) (1, 0, 0) 2 2) (ControlPoint.new (1, 0) (0, 1, 0) 2 2) (ControlPoint.new (1, 1) (1, 1, 1) 2 2) ColorAxis.G,
           color_coefficients (ControlPoint.new (0, 0) (0, 0, 0) 2 2) (ControlPoint.new (0, 1) (1, 0, 0) 2 2) (ControlPoint.new (1, 0) (0, 1, 0) 2 2) (ControlPoint.new (1, 1) (1, 1, 1) 2 2) ColorAxis.B)).1 ∧
      (ferguson_patch_col (1 / 2) (1 / 2)
          (color_coefficients (ControlPoint.new (0, 0) (0, 0, 0) 2 2) (ControlPoint.new (0, 1) (1, 0, 0) 2 2) (ControlPoint.new (1, 0) (0, 1, 0) 2 2) (ControlPoint.new (1, 1) (1, 1, 1) 2 2) ColorAxis.R,
           color_coefficients (ControlPoint.new (0, 0) (0, 0, 0) 2 2) (ControlPoint.new (0, 1) (1, 0, 0) 2 2) (ControlPoint.new (1, 0) (0, 1, 0) 2 2) (ControlPoint.new (1, 1) (1, 1, 1) 2 2) ColorAxis.G,
           color_coefficients (ControlPoint.new (0, 0) (0, 0, 0) 2 2) (ControlPoint.new (0, 1) (1, 0, 0) 2 2) (ControlPoint.new (1, 0) (0, 1, 0) 2 2) (ControlPoint.new (1, 1) (1, 1, 1) 2 2) ColorAxis.B)).1 ≤
        max (max (ControlPoint.new (0, 0) (0, 0, 0) 2 2).color.1 (ControlPoint.new (0, 1) (1, 0, 0) 2 2).color.1) (max (ControlPoint.new (1, 0) (0, 1, 0) 2 2).color.1 (ControlPoint.new (1, 1) (1, 1, 1) 2 2).color.1)) ∧
    (min (min (ControlPoint.new (0, 0) (0, 0, 0) 2 2).color.2.1 (ControlPoint.new (0, 1) (1, 0, 0) 2 2).color.2.1)
        (min (ControlPoint.new (1, 0) (0, 1, 0) 2 2).color.2.1 (ControlPoint.new (1, 1) (1, 1, 1) 2 2).color.2.1) ≤
        (ferguson_patch_col (1 / 2) (1 / 2)
          (color_coefficients (ControlPoint.new (0, 0) (0, 0, 0) 2 2) (ControlPoint.new (0, 1) (1, 0, 0) 2 2) (ControlPoint.new (1, 0) (0, 1, 0) 2 2) (ControlPoint.new (1, 1) (1, 1, 1) 2 2) ColorAxis.R,
           color_coefficients (ControlPoint.new (0, 0) (0, 0, 0) 2 2) (ControlPoint.new (0, 1) (1, 0, 0) 2 2) (ControlPoint.new (1, 0) (0, 1, 0) 2 2) (ControlPoint.new (1, 1) (1, 1, 1) 2 2) ColorAxis.G,
           color_coefficients (ControlPoint.new (0, 0) (0, 0, 0) 2 2) (ControlPoint.new (0, 1) (1, 0, 0) 2 2) (ControlPoint.new (1, 0) (0, 1, 0) 2 2) (ControlPoint.new (1, 1) (1, 1, 1) 2 2) ColorAxis.B)).2.1 ∧
      (ferguson_patch_col (1 / 2) (1 / 2)
          (color_coefficients (ControlPoint.new (0, 0) (0, 0, 0) 2 2) (ControlPoint.new (0, 1) (1, 0, 0) 2 2) (ControlPoint.new (1, 0) (0, 1, 0) 2 2) (ControlPoint.new (1, 1) (1, 1, 1) 2 2) ColorAxis.R,
           color_coefficients (ControlPoint.new (0, 0) (0, 0, 0) 2 2) (ControlPoint.new (0, 1) (1, 0, 0) 2 2) (ControlPoint.new (1, 0) (0, 1, 0) 2 2) (ControlPoint.new (1, 1) (1, 1, 1) 2 2) ColorAxis.G,
           color_coefficients (ControlPoint.new (0, 0) (0, 0, 0) 2 2) (ControlPoint.new (0, 1) (1, 0, 0) 2 2) (ControlPoint.new (1, 0) (0, 1, 0) 2 2) (ControlPoint.new (1, 1) (1, 1, 1) 2 2) ColorAxis.B)).2.1 ≤
        max (max (ControlPoint.new (0, 0) (0, 0, 0) 2 2).color.2.1 (ControlPoint.new (0, 1) (1, 0, 0) 2 2).color.2.1)
          (max (ControlPoint.new (1, 0) (0, 1, 0) 2 2).color.2.1 (ControlPoint.new (1, 1) (1, 1, 1) 2 2).color.2.1)) ∧
    (min (min (ControlPoint.new (0, 0) (0, 0, 0) 2 2).color.2.2 (ControlPoint.new (0, 1) (1, 0, 0) 2 2).color.2.2)
        (min (ControlPoint.new (1, 0) (0, 1, 0) 2 2).color.2.2 (ControlPoint.new (1, 1) (1, 1, 1) 2 2).color.2.2) ≤
        (ferguson_patch_col (1 / 2) (1 / 2)
          (color_coefficients (ControlPoint.new (0, 0) (0, 0, 0) 2 2) (ControlPoint.new (0, 1) (1, 0, 0) 2 2) (ControlPoint.new (1, 0) (0, 1, 0) 2 2) (ControlPoint.new (1, 1) (1, 1, 1) 2 2) ColorAxis.R,
           color_coefficients (ControlPoint.new (0, 0) (0, 0, 0) 2 2) (ControlPoint.new (0, 1) (1, 0, 0) 2 2) (ControlPoint.new (1, 0) (0, 1, 0) 2 2) (ControlPoint.new (1, 1) (1, 1, 1) 2 2) ColorAxis.G,
           color_coefficients (ControlPoint.new (0, 0) (0, 0, 0) 2 2) (ControlPoint.new (0, 1) (1, 0, 0) 2 2) (ControlPoint.new (1, 0) (0, 1, 0) 2 2) (ControlPoint.new (1, 1) (1, 1, 1) 2 2) ColorAxis.B)).2.2 ∧
      (ferguson_patch_col (1 / 2) (1 / 2)
          (color_coefficients (ControlPoint.new (0, 0) (0, 0, 0) 2 2) (ControlPoint.new (0, 1) (1, 0, 0) 2 2) (ControlPoint.new (1, 0) (0, 1, 0) 2 2) (ControlPoint.new (1, 1) (1, 1, 1) 2 2) ColorAxis.R,
           color_coefficients (ControlPoint.new (0, 0) (0, 0, 0) 2 2) (ControlPoint.new (0, 1) (1, 0, 0) 2 2) (ControlPoint.new (1, 0) (0, 1, 0) 2 2) (ControlPoint.new (1, 1) (1, 1, 1) 2 2) ColorAxis.G,
           color_coefficients (ControlPoint.new (0, 0) (0, 0, 0) 2 2) (ControlPoint.new (0, 1) (1, 0, 0) 2 2) (ControlPoint.new (1, 0) (0, 1, 0) 2 2) (ControlPoint.new (1, 1) (1, 1, 1) 2 2) ColorAxis.B)).2.2 ≤
        max (max (ControlPoint.new (0, 0) (0, 0, 0) 2 2).color.2.2 (ControlPoint.new (0, 1) (1, 0, 0) 2 2).color.2.2)
          (max (ControlPoint.new (1, 0) (0, 1, 0) 2 2).color.2.2 (ControlPoint.new (1, 1) (1, 1, 1) 2 2).color.2.2)):=
  C10_color_bounds (ControlPoint.new (0, 0) (0, 0, 0) 2 2)
    (ControlPoint.new (0, 1) (1, 0, 0) 2 2)
    (ControlPoint.new (1, 0) (0, 1, 0) 2 2)
    (ControlPoint.new (1, 1) (1, 1, 1) 2 2) (1 / 2) (1 / 2)
    (by norm_num) (by norm_num) (by norm_num) (by norm_num)

/-- Claim C4: for every patch `k` and sample cell `(r,c)` with
`r,c ∈ [0, steps)` where `steps = S+1`, the tessellation emits at flat
offset `k·steps²·6 + (r·steps+c)·6` of the index list exactly the two
triangles `(idx(r+1,c), idx(r,c+1), idx(r,c))` then
`(idx(r+1,c), idx(r+1,c+1), idx(r,c+1))`, with
`idx(r,c) = index_start + r·row_len + c`, `row_len = steps+1` and
`index_start = k·(steps+1)²` (all indices fitting in `u32`). -/
theorem C4_triangulation (W Hh S : Nat) (colors : List Vec3)
    (hW : 2 ≤ W) (hH : 2 ≤ Hh) (hcol : colors.length = W * Hh)
    (k r c : Nat) (hk : k < (W - 1) * (Hh - 1)) (hr : r < S + 1)
    (hc : c < S + 1)
    (hfit : (W - 1) * (Hh - 1) * ((S + 2) * (S + 2)) ≤ U32_MOD) :
    ∃ m P C I, Mesh.new W Hh colors = some m ∧
      construct_mesh m S = some (P, C, I) ∧
      (I.drop (k * ((S + 1) * (S + 1) * 6) +
          (r * (S + 1) + c) * 6)).take 6 =
        [k * ((S + 2) * (S + 2)) + (r + 1) * (S + 2) + c,
         k * ((S + 2) * (S + 2)) + r * (S + 2) + (c + 1),
         k * ((S + 2) * (S + 2)) + r * (S + 2) + c,
         k * ((S + 2) * (S + 2)) + (r + 1) * (S + 2) + c,
         k * ((S + 2) * (S + 2)) + (r + 1) * (S + 2) + (c + 1),
         k * ((S + 2) * (S + 2)) + r * (S + 2) + (c + 1)] := by
  have hm := mesh_new_eq W Hh colors (le_of_eq hcol.symm)
  obtain ⟨P, C, I, hrun, -, -, hI, -⟩ :=
    construct_mesh_spec W Hh S colors _ hW hH hm
  refine ⟨_, P, C, I, hm, hrun, ?_⟩
  rw [hI, index_blocks]
  have hflat := flat_lt (S + 1) (S + 1) c r hc hr
  have hb : (r * (S + 1) + c) * 6 + 6 ≤ (S + 1) * (S + 1) * 6 := by
    calc (r * (S + 1) + c) * 6 + 6 = (r * (S + 1) + c + 1) * 6 := by ring
      _ ≤ (S + 1) * (S + 1) * 6 := Nat.mul_le_mul_right _ hflat
  have e1 := seg_in_flatMap ((S + 1) * (S + 1) * 6) k ((W - 1) * (Hh - 1))
    (fun k' => patch_indexes (0 + k' * ((S + 1 + 1) * (S + 1 + 1))) (S + 1))
    (fun j => patch_indexes_length _ _) hk ((r * (S + 1) + c) * 6) 6 hb
  rw [e1]
  have hbound : (0 + k * ((S + 2) * (S + 2))) + (S + 2) * (S + 2) ≤
      U32_MOD := by
    have h1 : (k + 1) * ((S + 2) * (S + 2)) ≤
        (W - 1) * (Hh - 1) * ((S + 2) * (S + 2)) :=
      Nat.mul_le_mul_right _ hk
    calc (0 + k * ((S + 2) * (S + 2))) + (S + 2) * (S + 2)
        = (k + 1) * ((S + 2) * (S + 2)) := by ring
      _ ≤ (W - 1) * (Hh - 1) * ((S + 2) * (S + 2)) := h1
      _ ≤ U32_MOD := hfit
  rw [patch_indexes_cell_no_mod (0 + k * ((S + 1 + 1) * (S + 1 + 1)))
    (S + 1) r c hr hc hbound]
  simp only [List.cons.injEq, and_true]
  refine ⟨?_, ?_, ?_, ?_, ?_, ?_⟩ <;> ring

/-- Witness for C4 at `W = H = 2`, `S = 0`, patch 0, cell `(0,0)`. -/
theorem C4_triangulation_witness :
    ∃ m P C I,
      Mesh.new 2 2 (List.replicate 4 ((0, 0, 0) : Vec3)) = some m ∧
      construct_mesh m 0 = some (P, C, I) ∧
      (I.drop (0 * ((0 + 1) * (0 + 1) * 6) +
          (0 * (0 + 1) + 0) * 6)).take 6 =
        [0 * ((0 + 2) * (0 + 2)) + (0 + 1) * (0 + 2) + 0,
         0 * ((0 + 2) * (0 + 2)) + 0 * (0 + 2) + (0 + 1),
         0 * ((0 + 2) * (0 + 2)) + 0 * (0 + 2) + 0,
         0 * ((0 + 2) * (0 + 2)) + (0 + 1) * (0 + 2) + 0,
         0 * ((0 + 2) * (0 + 2)) + (0 + 1) * (0 + 2) + (0 + 1),
         0 * ((0 + 2) * (0 + 2)) + 0 * (0 + 2) + (0 + 1)] :=
  C4_triangulation 2 2 0 (List.replicate 4 ((0, 0, 0) : Vec3))
    (by norm_num) (by norm_num) (by simp) 0 0 0
    (by norm_num) (by norm_num) (by norm_num)
    (by norm_num [U32_MOD])

/-- Claim C5: every emitted position is `(2x-1, -(2y-1), 0)` for some
raw patch-space evaluation `(x,y)` of a patch of the grid, so its
`z` component is 0; and the output map sends `(1/2,1/2) ↦ (0,0,0)`,
`(0,0) ↦ (-1,1,0)` and `(1,1) ↦ (1,-1,0)`. -/
theorem C5_output_mapping (W Hh S : Nat) (colors : List Vec3)
    (hW : 2 ≤ W) (hH : 2 ≤ Hh) (hcol : colors.length = W * Hh) :
    ∃ m P C I, Mesh.new W Hh colors = some m ∧
      construct_mesh m S = some (P, C, I) ∧
      (∀ p ∈ P, ∃ wh : Nat × Nat, ∃ i j : Nat,
        ∃ p00 p01 p10 p11 : ControlPoint,
          i ≤ S + 1 ∧ j ≤ S + 1 ∧
          m.point_at wh.1 wh.2 = some p00 ∧
          m.point_at wh.1 (wh.2 + 1) = some p01 ∧
          m.point_at (wh.1 + 1) wh.2 = some p10 ∧
          m.point_at (wh.1 + 1) (wh.2 + 1) = some p11 ∧
          ∃ x y : ℚ,
            ferguson_patch_pt ((i : ℚ) / ((S + 1 : Nat) : ℚ))
              ((j : ℚ) / ((S + 1 : Nat) : ℚ))
              (geometric_coefficients p00 p01 p10 p11 Axis.X)
              (geometric_coefficients p00 p01 p10 p11 Axis.Y) = (x, y) ∧
            p = (2 * x - 1, -(2 * y - 1), 0)) ∧
      out_position (1 / 2, 1 / 2) = (0, 0, 0) ∧
      out_position (0, 0) = (-1, 1, 0) ∧
      out_position (1, 1) = (1, -1, 0) := by
  have hm := mesh_new_eq W Hh colors (le_of_eq hcol.symm)
  obtain ⟨P, C, I, hrun, -, -, -, hsample⟩ :=
    construct_mesh_spec W Hh S colors _ hW hH hm
  refine ⟨_, P, C, I, hm, hrun, ?_, ?_, ?_, ?_⟩
  · intro p hp
    obtain ⟨wh, i, j, p00, p01, p10, p11, hi, hj, h1, h2, h3, h4, heq⟩ :=
      hsample p hp
    refine ⟨wh, i, j, p00, p01, p10, p11, hi, hj, h1, h2, h3, h4,
      (ferguson_patch_pt ((i : ℚ) / ((S + 1 : Nat) : ℚ))
        ((j : ℚ) / ((S + 1 : Nat) : ℚ))
        (geometric_coefficients p00 p01 p10 p11 Axis.X)
        (geometric_coefficients p00 p01 p10 p11 Axis.Y)).1,
      (ferguson_patch_pt ((i : ℚ) / ((S + 1 : Nat) : ℚ))
        ((j : ℚ) / ((S + 1 : Nat) : ℚ))
        (geometric_coefficients p00 p01 p10 p11 Axis.X)
        (geometric_coefficients p00 p01 p10 p11 Axis.Y)).2,
      rfl, ?_⟩
    rw [heq, out_position_eq]
  · norm_num [out_position]
  · norm_num [out_position]
  · norm_num [out_position]

/-- Witness for C5 at `W = H = 2`, `S = 0`. -/
theorem C5_output_mapping_witness :
    ∃ m P C I,
      Mesh.new 2 2 (List.replicate 4 ((0, 0, 0) : Vec3)) = some m ∧
      construct_mesh m 0 = some (P, C, I) ∧
      (∀ p ∈ P, ∃ wh : Nat × Nat, ∃ i j : Nat,
        ∃ p00 p01 p10 p11 : ControlPoint,
          i ≤ 0 + 1 ∧ j ≤ 0 + 1 ∧
          m.point_at wh.1 wh.2 = some p00 ∧
          m.point_at wh.1 (wh.2 + 1) = some p01 ∧
          m.point_at (wh.1 + 1) wh.2 = some p10 ∧
          m.point_at (wh.1 + 1) (wh.2 + 1) = some p11 ∧
          ∃ x y : ℚ,
            ferguson_patch_pt ((i : ℚ) / ((0 + 1 : Nat) : ℚ))
              ((j : ℚ) / ((0 + 1 : Nat) : ℚ))
              (geometric_coefficients p00 p01 p10 p11 Axis.X)
              (geometric_coefficients p00 p01 p10 p11 Axis.Y) = (x, y) ∧
            p = (2 * x - 1, -(2 * y - 1), 0)) ∧
      out_position (1 / 2, 1 / 2) = (0, 0, 0) ∧
      out_position (0, 0) = (-1, 1, 0) ∧
      out_position (1, 1) = (1, -1, 0) :=
  C5_output_mapping 2 2 0 (List.replicate 4 ((0, 0, 0) : Vec3))
    (by norm_num) (by norm_num) (by simp)

end MeshGradients
